import Mathlib

/-!
Verification development for the EinoMeetingAgent multi-roleplay meeting
orchestrator (Go).  The definitions below are a shallow embedding of the
Go source: pure functions become Lean functions, the mutable
`LogCallbackHandler` / SSE stream / generation calls become explicit state
passing, and the external chat-model calls become a call-ordered oracle of
results (`World.oracle`), with every message list passed to a generation
call recorded in `World.calls`.
-/

/-- RoleType mirrors eino's `schema.RoleType` constants `system`, `user`,
`assistant` (the only ones this program uses). -/
inductive RoleType
  | system
  | user
  | assistant
deriving DecidableEq, Repr

/-- Go `string(role)` for the three role constants. -/
def roleTypeStr : RoleType → String
  | RoleType.system => "system"
  | RoleType.user => "user"
  | RoleType.assistant => "assistant"

/-- Mirrors eino's `schema.Message` (role + content; the other fields are
unused by this program). -/
structure SchemaMessage where
  role : RoleType
  content : String
deriving DecidableEq, Repr

/-- Mirrors `models.DiscussionMessage` from `multi_roleplay_meeting.go`. -/
structure DiscussionMessage where
  role : String
  content : String
  isSystem : Bool
deriving DecidableEq, Repr

/-- Mirrors `models.MultiRoleplayResponse`. -/
structure MultiRoleplayResponse where
  messages : List DiscussionMessage
  summary : String
deriving DecidableEq, Repr

/-- Mirrors `models.MultiRoleplayRequest`.  `rounds` is `int` in Go, kept
as `Int` here (the handlers default it to 3 when it is ≤ 0). -/
structure MultiRoleplayRequest where
  meetingID : String
  host : String
  specialists : List String
  rounds : Int
  topic : String
deriving Repr

/-- Result of one external `ChatModel.Generate` call: either an error
message or the generated content. -/
abbrev GenResult := Except String String

/-- State of the external generation capability, shallowly embedded: the
orchestration is single-threaded, so the results of the successive
`Generate` calls are modelled as a call-ordered oracle list, and every
message list handed to `Generate` is recorded in `calls` in call order. -/
structure World where
  oracle : List GenResult
  calls : List (List SchemaMessage)
deriving Repr

/-- One `ChatModel.Generate` call: consumes the next oracle entry and
records the message list that was passed in. -/
def generate (w : World) (msgs : List SchemaMessage) : GenResult × World :=
  (w.oracle.headD (Except.error "no response"),
   ⟨w.oracle.tail, w.calls ++ [msgs]⟩)

/-- State of one `sse.Stream` subscriber connection.  `outcomes` is the
external transport's per-publish behaviour (true = delivered); `attempted`
and `delivered` record the events handed to `Publish` and the events the
transport accepted, in order. -/
structure SSEStream where
  outcomes : List Bool
  attempted : List DiscussionMessage
  delivered : List DiscussionMessage
deriving DecidableEq, Repr

/-- One `Stream.Publish` call: consumes the next transport outcome (a
subscriber with no recorded outcome accepts the event). -/
def SSEStream.publish (s : SSEStream) (msg : DiscussionMessage) : SSEStream × Bool :=
  let ok := s.outcomes.headD true
  (⟨s.outcomes.tail, s.attempted ++ [msg],
    if ok then s.delivered ++ [msg] else s.delivered⟩, ok)

/-- Association-map insert for `AgentNameMap` (Go map assignment:
overwrite the key). -/
def mapInsert (m : List (String × String)) (k v : String) : List (String × String) :=
  (k, v) :: m.filter (fun p => p.1 ≠ k)

/-- Association-map lookup for `AgentNameMap`. -/
def mapLookup (m : List (String × String)) (k : String) : Option String :=
  (m.find? (fun p => p.1 = k)).map Prod.snd

/-- Mirrors `models.LogCallbackHandler`: the transcript under construction,
the optional SSE stream, and the role-name map. -/
structure LogCallbackHandler where
  messages : List DiscussionMessage
  stream : Option SSEStream
  agentNameMap : List (String × String)
deriving Repr

/-- Entry built by `LogCallbackHandler.OnAgentMessage` for an incoming
schema message: role mapped through `AgentNameMap` (except for system
messages), `isSystem` from the schema role. -/
def messageEntry (h : LogCallbackHandler) (msg : SchemaMessage) : DiscussionMessage :=
  let roleName :=
    match mapLookup h.agentNameMap (roleTypeStr msg.role) with
    | some actualName =>
        if msg.role = RoleType.system then roleTypeStr msg.role else actualName
    | none => roleTypeStr msg.role
  ⟨roleName, msg.content, decide (msg.role = RoleType.system)⟩

/-- JSON-marshal plus `Stream.Publish` when a stream is present (marshal of
a `DiscussionMessage` cannot fail, so only the publish outcome matters);
returns the publish error, which every caller in this program ignores. -/
def LogCallbackHandler.publishIfStream (h : LogCallbackHandler)
    (msg : DiscussionMessage) : LogCallbackHandler × Option String :=
  match h.stream with
  | none => (h, none)
  | some s =>
      let r := s.publish msg
      ({ h with stream := some r.1 },
       if r.2 then none else some "publish failed")

/-- Mirrors `LogCallbackHandler.OnAgentMessage`: append the mapped entry to
`Messages`, then publish it to the stream if one is attached. -/
def LogCallbackHandler.onAgentMessage (h : LogCallbackHandler)
    (msg : SchemaMessage) : LogCallbackHandler × Option String :=
  let message := messageEntry h msg
  let h := { h with messages := h.messages ++ [message] }
  h.publishIfStream message

/-- Handoff entry built by `LogCallbackHandler.OnAgentHandoff`. -/
def handoffEntry (targetAgent : String) : DiscussionMessage :=
  ⟨"系统", "【" ++ targetAgent ++ " 将继续发言】", true⟩

/-- Mirrors `LogCallbackHandler.OnAgentHandoff`. -/
def LogCallbackHandler.onAgentHandoff (h : LogCallbackHandler)
    (targetAgent : String) : LogCallbackHandler × Option String :=
  let message := handoffEntry targetAgent
  let h := { h with messages := h.messages ++ [message] }
  h.publishIfStream message

/-- Whitespace test used by Go's `strings.TrimSpace` (restricted to the
ASCII whitespace that can occur in model output in this embedding). -/
def isSpaceChar (c : Char) : Bool :=
  c = ' ' || c = '\t' || c = '\n' || c = '\r'

/-- Models Go `strings.TrimSpace`: drop leading and trailing whitespace. -/
def trimSpace (s : String) : String :=
  ⟨((s.data.dropWhile isSpaceChar).reverse.dropWhile isSpaceChar).reverse⟩

/-- Mirrors `models.Host` (the `ChatModel` binding is embedded as the
call-ordered oracle in `World`, so only the prompt and name remain). -/
structure Host where
  systemPrompt : String
  name : String
deriving Repr

/-- Mirrors `models.Specialist` (same remark about `ChatModel`). -/
structure Specialist where
  name : String
  systemPrompt : String
deriving DecidableEq, Repr

/-- Mirrors `models.MultiAgent`. -/
structure MultiAgent where
  host : Host
  specialists : List Specialist
deriving Repr

/-- Fallback content recorded when a specialist's generation call fails
(`MultiAgent.Stream`, error branch). -/
def specialistFallback : String := "（因技术原因，暂未收到回复）"

/-- Fallback content recorded when a specialist's generation returns
whitespace-only output. -/
def emptyFallback (name : String) : String :=
  "（" ++ name ++ "表示暂时没有补充意见）"

/-- Per-turn invitation prompt appended for each specialist
(`specialistPrompt` in `MultiAgent.Stream`). -/
def invitePrompt (hostName specialistName : String) : String :=
  "主持人" ++ hostName ++ "邀请你(" ++ specialistName ++
    ")发表意见。请根据主持人的提问，分享你的看法。"

/-- Specialist loop of `MultiAgent.Stream`: for each specialist emit a
handoff, build its message list (own system prompt, the accumulated round
context, the invitation), call `Generate`, and record either the reply
(with the empty-output fallback) or the failure fallback.  Returns the
updated handler, world, and the accumulated pipe output. -/
def specialistsLoop (hostName : String) (specs : List Specialist)
    (cb : LogCallbackHandler) (ctx : List SchemaMessage) (w : World)
    (pipeOut : String) : LogCallbackHandler × World × String :=
  match specs with
  | [] => (cb, w, pipeOut)
  | sp :: rest =>
      let cb1 := (cb.onAgentHandoff sp.name).1
      let specialistMessages :=
        SchemaMessage.mk RoleType.system sp.systemPrompt ::
          (ctx ++ [SchemaMessage.mk RoleType.user (invitePrompt hostName sp.name)])
      let cb2 := { cb1 with agentNameMap := mapInsert cb1.agentNameMap "assistant" sp.name }
      let g := generate w specialistMessages
      match g.1 with
      | Except.error e =>
          let errMsg := "专家" ++ sp.name ++ "回复失败: " ++ e
          let cb3 := (cb2.onAgentMessage ⟨RoleType.assistant, specialistFallback⟩).1
          specialistsLoop hostName rest cb3 ctx g.2 (pipeOut ++ errMsg)
      | Except.ok raw =>
          let content := if trimSpace raw = "" then emptyFallback sp.name else raw
          let cb3 := (cb2.onAgentMessage ⟨RoleType.assistant, content⟩).1
          specialistsLoop hostName rest cb3
            (ctx ++ [SchemaMessage.mk RoleType.user (sp.name ++ ": " ++ content)])
            g.2 pipeOut

/-- Mirrors `MultiAgent.Stream`: host speaks first (its failure aborts the
goroutine after writing the error to the pipe), then the specialists in
order.  The second component is the function's returned `error`, which in
the source is always `nil` (`return pr, nil`); the `String` in the first
component is everything written to the pipe. -/
def MultiAgent.Stream (ma : MultiAgent) (messages : List SchemaMessage)
    (cb : LogCallbackHandler) (w : World) :
    (LogCallbackHandler × World × String) × Option String :=
  let hostMessages := SchemaMessage.mk RoleType.system ma.host.systemPrompt :: messages
  let g := generate w hostMessages
  let body :=
    match g.1 with
    | Except.error e => (cb, g.2, "错误: " ++ e)
    | Except.ok hostContent =>
        let hostMsg : SchemaMessage := ⟨RoleType.assistant, hostContent⟩
        let cb1 := { cb with agentNameMap := mapInsert cb.agentNameMap "assistant" ma.host.name }
        let cb2 := (cb1.onAgentMessage hostMsg).1
        specialistsLoop ma.host.name ma.specialists cb2 (messages ++ [hostMsg]) g.2 ""
  (body, none)

/-- First loop of `collectRoundMessages`: position just after the last
system entry (0 when there is none).  `i` is the running index, `sp` the
running result. -/
def collectStartPos : List DiscussionMessage → Nat → Nat → Nat
  | [], _, sp => sp
  | m :: rest, i, sp => collectStartPos rest (i + 1) (if m.isSystem then i + 1 else sp)

/-- Mirrors `collectRoundMessages`: from the position after the last
system entry, keep the non-system entries, re-tagging the host's name to
`assistant` and every other role to `user`. -/
def collectRoundMessages (messages : List DiscussionMessage) (hostName : String)
    (specialistNames : List String) : List SchemaMessage :=
  let startPos := collectStartPos messages 0 0
  ((messages.drop startPos).filter (fun m => !m.isSystem)).map
    (fun m => ⟨if m.role = hostName then RoleType.assistant else RoleType.user, m.content⟩)

/-- Go `strings.Join`. -/
def stringsJoin (elems : List String) (sep : String) : String :=
  match elems with
  | [] => ""
  | x :: xs => xs.foldl (fun acc e => acc ++ sep ++ e) x

/-- Host instruction prompt built at the top of each round of
`ProcessMultiRoleplayMeeting` (round 0 with/without topic vs later rounds). -/
def mkHostPrompt (req : MultiRoleplayRequest) (round : Nat) : String :=
  let specialistsNames := stringsJoin req.specialists "、"
  if round = 0 then
    if req.topic ≠ "" then
      "作为会议主持人，现在请你引导参会者们讨论以下主题：" ++ req.topic ++
        "。在你的发言中，必须逐个点名邀请每位参会者（" ++ specialistsNames ++
        "）发表意见。你的发言应该自然、富有引导性，并确保所有人都能参与讨论。"
    else
      "作为会议主持人，请引导参会者们深入讨论会议中的重要议题。在你的发言中，必须逐个点名邀请每位参会者（" ++
        specialistsNames ++ "）发表意见。你的发言应该自然、富有引导性，确保所有人都能参与讨论。"
  else
    "作为会议主持人，请对当前讨论进行简短总结，并继续引导讨论。在你的发言中，必须点名邀请每位参会者（" ++
      specialistsNames ++ "）对讨论主题发表进一步的看法。确保所有人都能充分参与讨论，特别是那些之前发言不多的人。"

/-- System message placed at the head of each round's `roundMessages`. -/
def roundSystemText (hostName : String) : String :=
  "你是会议主持人" ++ hostName ++
    "。你的角色是引导讨论并确保每位参会者都有发言机会。你必须在发言中明确点名每位参会者，请他们发表意见。"

/-- Round loop of `ProcessMultiRoleplayMeeting`.  `roundsLeft` counts the
remaining iterations (`req.rounds.toNat` initially), `round` is the Go
loop index.  On the last round the loop breaks before recomputing the
discussion history; the `Stream` error check is kept although `Stream`
always returns a nil error. -/
def runRounds (req : MultiRoleplayRequest) (ma : MultiAgent) :
    Nat → Nat → List SchemaMessage → LogCallbackHandler → World →
    Except String (LogCallbackHandler × World)
  | 0, _, _, cb, w => Except.ok (cb, w)
  | roundsLeft + 1, round, history, cb, w =>
      let roundMessages :=
        SchemaMessage.mk RoleType.system (roundSystemText req.host) ::
          SchemaMessage.mk RoleType.user (mkHostPrompt req round) :: history
      let r := ma.Stream roundMessages cb w
      match r.2 with
      | some e => Except.error ("第" ++ toString (round + 1) ++ "轮对话生成失败: " ++ e)
      | none =>
          match roundsLeft with
          | 0 => Except.ok (r.1.1, r.1.2.1)
          | nextLeft + 1 =>
              runRounds req ma (nextLeft + 1) (round + 1)
                (collectRoundMessages r.1.1.messages req.host req.specialists)
                r.1.1 r.1.2.1

/-- System prompt of the host agent (`newHost`). -/
def hostSystemPrompt (hostName meetingInfo meetingContent participantsStr : String) : String :=
  "你是会议主持人" ++ hostName ++ "，负责引导和管理会议讨论。\n\n会议背景信息:\n" ++
    meetingInfo ++ "\n\n会议内容:\n" ++ meetingContent ++ "\n\n参会人员：" ++
    participantsStr ++
    "\n\n作为主持人，你必须：\n1. 在每次发言中，明确点名邀请每位参会者发表意见，不能遗漏任何一位参会者\n2. 引导讨论朝有建设性的方向发展，确保讨论不偏离主题\n3. 尊重每个参会者的意见，适当总结讨论内容，推动讨论深入\n4. 确保每次发言都简洁、清晰，言语专业有礼貌\n5. 以第一人称回应，不要暴露你是AI的事实\n\n注意：你必须在每次发言中，明确提及并邀请所有参会者（" ++
    participantsStr ++ "）各自发表意见。这是你的首要任务。"

/-- System prompt of a specialist agent (`newSpecialist`). -/
def specialistSystemPrompt (specialistName meetingInfo meetingContent hostName : String) : String :=
  "你是会议参会者" ++ specialistName ++ "，在会议中扮演你自己的角色。\n\n会议背景信息:\n" ++
    meetingInfo ++ "\n\n会议内容:\n" ++ meetingContent ++ "\n\n当主持人" ++ hostName ++
    "或其他参会者向你提问或点名你发言时，你必须做出回应。\n\n作为参会者" ++ specialistName ++
    "，你应该:\n1. 基于会议记录中你的言论和表现，保持一致的性格、语气和专业知识\n2. 如果会议内容中提到了你的职位、专长或责任，请在发言中体现出来\n3. 对主持人和其他参会者的提问或建议作出回应\n4. 表达你自己的观点，可以适当提出建设性的意见或批评\n5. 不要重复已经说过的内容，要推动讨论向前发展\n6. 你的回复应简洁、清晰，言语专业有礼貌\n\n请记住，当主持人点名邀请你发言时，你必须积极回应。以第一人称回应，不要暴露你是AI的事实。"

/-- Mirrors `newHost`.  `arkInit` stands for the outcome of the config
lookup plus `ark.NewChatModel` (the same memoized config is consulted on
every creation, so one shared outcome is faithful); on failure the first
wrapped error of the source is used. -/
def newHost (arkInit : Except String Unit) (hostName meetingContent meetingInfo : String)
    (specialists : List String) : Except String Host :=
  match arkInit with
  | Except.error e => Except.error ("获取API密钥失败: " ++ e)
  | Except.ok _ =>
      Except.ok ⟨hostSystemPrompt hostName meetingInfo meetingContent
        (stringsJoin specialists "、"), hostName⟩

/-- Mirrors `newSpecialist` (same `arkInit` remark as `newHost`). -/
def newSpecialist (arkInit : Except String Unit)
    (specialistName meetingContent meetingInfo hostName : String) :
    Except String Specialist :=
  match arkInit with
  | Except.error e => Except.error ("获取API密钥失败: " ++ e)
  | Except.ok _ =>
      Except.ok ⟨specialistName,
        specialistSystemPrompt specialistName meetingInfo meetingContent hostName⟩

/-- Specialist-creation loop of `ProcessMultiRoleplayMeeting` (stops and
wraps the error at the first failing creation). -/
def buildSpecialists (arkInit : Except String Unit)
    (meetingContent meetingInfo hostName : String) :
    List String → Except String (List Specialist)
  | [] => Except.ok []
  | name :: rest =>
      match newSpecialist arkInit name meetingContent meetingInfo hostName with
      | Except.error e => Except.error ("创建专家代理 " ++ name ++ " 失败: " ++ e)
      | Except.ok sp =>
          match buildSpecialists arkInit meetingContent meetingInfo hostName rest with
          | Except.error e => Except.error e
          | Except.ok sps => Except.ok (sp :: sps)

/-- System prompt handed to the summarizer model
(`generateDiscussionSummary`). -/
def summarySystemPrompt : String :=
  "作为专业会议纪要专家，请对提供的会议讨论内容进行总结。总结应包括：\n1. 讨论的主要话题和议题\n2. 各方观点的概述\n3. 达成的共识或结论\n4. 需要进一步讨论的问题\n5. 确定的下一步行动项目\n\n总结应该清晰、简洁、客观，长度控制在300-500字之间。请以第三人称编写，不要添加个人评价。"

/-- Mirrors `generateDiscussionSummary`: build the discussion record from
the non-system entries and make one `Generate` call. -/
def generateDiscussionSummary (arkInit : Except String Unit)
    (messages : List DiscussionMessage) (meetingInfo : String) (w : World) :
    Except String String × World :=
  match arkInit with
  | Except.error e => (Except.error ("获取API密钥失败: " ++ e), w)
  | Except.ok _ =>
      let discussionContent :=
        "会议背景信息:\n" ++ meetingInfo ++ "\n\n讨论记录:\n" ++
          messages.foldl
            (fun acc m => if m.isSystem then acc else acc ++ m.role ++ ": " ++ m.content ++ "\n\n")
            ""
      let promptMessages :=
        [SchemaMessage.mk RoleType.system summarySystemPrompt,
         SchemaMessage.mk RoleType.user discussionContent]
      let g := generate w promptMessages
      match g.1 with
      | Except.error e => (Except.error ("生成总结失败: " ++ e), g.2)
      | Except.ok c => (Except.ok c, g.2)

/-- System entry appended when the session starts. -/
def startEntry : DiscussionMessage := ⟨"系统", "【会议扩展讨论开始】", true⟩

/-- System entry appended with the final summary text. -/
def summaryEntry (summary : String) : DiscussionMessage :=
  ⟨"系统", "【讨论总结】\n" ++ summary, true⟩

/-- Overall outcome of `ProcessMultiRoleplayMeeting`: the returned value
plus the final handler and world states (so the transcript, the stream and
the recorded generation calls stay observable even on the error paths). -/
structure ProcOutcome where
  result : Except String MultiRoleplayResponse
  cb : LogCallbackHandler
  world : World
deriving Repr

/-- Mirrors `ProcessMultiRoleplayMeeting`.  `meeting` is the outcome of the
external `getMeetingContent` file lookup, `arkInit` the shared config /
model-construction outcome, `stream` the optional SSE subscriber, and
`oracle` the call-ordered external generation results. -/
def ProcessMultiRoleplayMeeting (meeting : Except String (String × String))
    (arkInit : Except String Unit) (req : MultiRoleplayRequest)
    (stream : Option SSEStream) (oracle : List GenResult) : ProcOutcome :=
  let w0 : World := ⟨oracle, []⟩
  match meeting with
  | Except.error e => ⟨Except.error e, ⟨[], stream, []⟩, w0⟩
  | Except.ok mi =>
      let cb : LogCallbackHandler := ⟨[], stream, []⟩
      let cb := { cb with messages := cb.messages ++ [startEntry] }
      let cb := (cb.publishIfStream startEntry).1
      match newHost arkInit req.host mi.1 mi.2 req.specialists with
      | Except.error e => ⟨Except.error ("创建主持人代理失败: " ++ e), cb, w0⟩
      | Except.ok hostAgent =>
          match buildSpecialists arkInit mi.1 mi.2 req.host req.specialists with
          | Except.error e => ⟨Except.error e, cb, w0⟩
          | Except.ok specialists =>
              let ma : MultiAgent := ⟨hostAgent, specialists⟩
              match runRounds req ma req.rounds.toNat 0 [] cb w0 with
              | Except.error e => ⟨Except.error e, cb, w0⟩
              | Except.ok st =>
                  let cb := st.1
                  match generateDiscussionSummary arkInit cb.messages mi.2 st.2 with
                  | (Except.error e, w) =>
                      ⟨Except.error ("生成讨论总结失败: " ++ e), cb, w⟩
                  | (Except.ok summary, w) =>
                      let cb := { cb with messages := cb.messages ++ [summaryEntry summary] }
                      let cb := (cb.publishIfStream (summaryEntry summary)).1
                      ⟨Except.ok ⟨cb.messages, summary⟩, cb, w⟩

/-- Mirrors `PerformMultiRoleplayMeeting`: the synchronous entry point
(`ProcessMultiRoleplayMeeting` with a nil stream). -/
def PerformMultiRoleplayMeeting (meeting : Except String (String × String))
    (arkInit : Except String Unit) (req : MultiRoleplayRequest)
    (oracle : List GenResult) : ProcOutcome :=
  ProcessMultiRoleplayMeeting meeting arkInit req none oracle

/-- Mirrors `StreamMultiRoleplayMeeting`: the streaming entry point,
returning only the terminal error. -/
def StreamMultiRoleplayMeeting (meeting : Except String (String × String))
    (arkInit : Except String Unit) (req : MultiRoleplayRequest)
    (stream : SSEStream) (oracle : List GenResult) : Option String :=
  match (ProcessMultiRoleplayMeeting meeting arkInit req (some stream) oracle).result with
  | Except.error e => some e
  | Except.ok _ => none

/-- HTTP status constants used by the handlers (hertz `consts`). -/
def statusOK : Nat := 200

/-- Bad-request status. -/
def statusBadRequest : Nat := 400

/-- Internal-server-error status. -/
def statusInternalServerError : Nat := 500

/-- Observable outcome of a handler: a JSON error payload with a status, a
JSON success payload, a completed SSE stream, or an aborted stream. -/
inductive HandlerResponse
  | jsonError (status : Nat) (message : String)
  | jsonOK (resp : MultiRoleplayResponse)
  | streamDone
  | abortStatus (status : Nat)
deriving DecidableEq, Repr

/-- Mirrors `handlers.HandleMultiRoleplayMeeting`: bind the body, validate
`meeting_id`, `host` and the specialist list, default `rounds` to 3 when
it is ≤ 0, then run the meeting.  `perform` stands for
`models.PerformMultiRoleplayMeeting`. -/
def HandleMultiRoleplayMeeting (body : Except String MultiRoleplayRequest)
    (perform : MultiRoleplayRequest → Except String MultiRoleplayResponse) :
    HandlerResponse :=
  match body with
  | Except.error e => HandlerResponse.jsonError statusBadRequest ("无效的请求体: " ++ e)
  | Except.ok reqBody =>
      if reqBody.meetingID = "" then
        HandlerResponse.jsonError statusBadRequest "meeting_id 是必需的"
      else if reqBody.host = "" then
        HandlerResponse.jsonError statusBadRequest "host 是必需的"
      else if reqBody.specialists.length = 0 then
        HandlerResponse.jsonError statusBadRequest "至少需要一名专家参与者"
      else
        let reqBody := if reqBody.rounds ≤ 0 then { reqBody with rounds := 3 } else reqBody
        match perform reqBody with
        | Except.error e =>
            HandlerResponse.jsonError statusInternalServerError ("执行多角色扮演会议失败: " ++ e)
        | Except.ok resp => HandlerResponse.jsonOK resp

/-- Mirrors `handlers.HandleStreamMultiRoleplayMeeting`: same validation,
then the streaming run.  `streamMeeting` stands for
`models.StreamMultiRoleplayMeeting` applied to the created SSE stream. -/
def HandleStreamMultiRoleplayMeeting (body : Except String MultiRoleplayRequest)
    (streamMeeting : MultiRoleplayRequest → Option String) : HandlerResponse :=
  match body with
  | Except.error e => HandlerResponse.jsonError statusBadRequest ("无效的请求体: " ++ e)
  | Except.ok reqBody =>
      if reqBody.meetingID = "" then
        HandlerResponse.jsonError statusBadRequest "meeting_id 是必需的"
      else if reqBody.host = "" then
        HandlerResponse.jsonError statusBadRequest "host 是必需的"
      else if reqBody.specialists.length = 0 then
        HandlerResponse.jsonError statusBadRequest "至少需要一名专家参与者"
      else
        let reqBody := if reqBody.rounds ≤ 0 then { reqBody with rounds := 3 } else reqBody
        match streamMeeting reqBody with
        | some _ => HandlerResponse.abortStatus statusInternalServerError
        | none => HandlerResponse.streamDone

/-- Mirrors the `ark` section of `models.Config`. -/
structure ARKConfig where
  apiKey : String
  modelName : String
deriving DecidableEq, Repr

/-- Mirrors `models.Config`. -/
structure Config where
  ark : ARKConfig
deriving DecidableEq, Repr

/-- Process environment seen by `LoadConfig`: the `CONFIG_PATH` variable
(`""` when unset, as Go's `os.Getenv` reports), the filesystem
(`os.ReadFile`), and JSON decoding (`json.Unmarshal`, an external
library). -/
structure ConfigEnv where
  configPathVar : String
  readFile : String → Except String String
  decode : String → Except String Config

/-- Process-wide state guarded by `configOnce`: `none` before the first
`LoadConfig` call, `some r` afterwards (`config`/`configErr` in Go, which
after `Do` always hold exactly one of a value or an error). -/
structure ConfigState where
  cached : Option (Except String Config)
deriving Repr

/-- Body of the `configOnce.Do` closure in `LoadConfig`. -/
def loadConfigBody (env : ConfigEnv) : Except String Config :=
  let configPath := if env.configPathVar = "" then "config/config.json" else env.configPathVar
  match env.readFile configPath with
  | Except.error e => Except.error ("读取配置文件失败: " ++ e)
  | Except.ok data =>
      match env.decode data with
      | Except.error e => Except.error ("解析配置文件失败: " ++ e)
      | Except.ok cfg =>
          if cfg.ark.apiKey = "" then Except.error "ARK API密钥未配置"
          else Except.ok cfg

/-- Mirrors `models.LoadConfig`: run the body once, cache forever. -/
def LoadConfig (env : ConfigEnv) (st : ConfigState) :
    Except String Config × ConfigState :=
  match st.cached with
  | some r => (r, st)
  | none =>
      let r := loadConfigBody env
      (r, ⟨some r⟩)

/-- Mirrors `models.GetARKAPIKey`. -/
def GetARKAPIKey (env : ConfigEnv) (st : ConfigState) :
    Except String String × ConfigState :=
  let r := LoadConfig env st
  match r.1 with
  | Except.error e => (Except.error e, r.2)
  | Except.ok cfg => (Except.ok cfg.ark.apiKey, r.2)

/-- Mirrors `models.GetARKModelName`. -/
def GetARKModelName (env : ConfigEnv) (st : ConfigState) :
    Except String String × ConfigState :=
  let r := LoadConfig env st
  match r.1 with
  | Except.error e => (Except.error e, r.2)
  | Except.ok cfg => (Except.ok cfg.ark.modelName, r.2)

/-- Content recorded for one specialist turn given that turn's generation
result: failure fallback, empty-output fallback, or the raw reply. -/
def specContent (name : String) (r : GenResult) : String :=
  match r with
  | Except.error _ => specialistFallback
  | Except.ok raw => if trimSpace raw = "" then emptyFallback name else raw

/-- Transcript entry recorded for one specialist turn. -/
def specEntryOf (p : Specialist × GenResult) : DiscussionMessage :=
  ⟨p.1.name, specContent p.1.name p.2, false⟩

/-- Expected transcript block appended by the specialist loop: a handoff
entry followed by the reply entry, for each specialist in order. -/
def expectedSpecEntries : List (Specialist × GenResult) → List DiscussionMessage
  | [] => []
  | p :: rest => handoffEntry p.1.name :: specEntryOf p :: expectedSpecEntries rest

/-- Context message a specialist turn contributes to the following turns
(nothing on failure, the name-prefixed reply on success). -/
def ctxUserOf (p : Specialist × GenResult) : List SchemaMessage :=
  match p.2 with
  | Except.error _ => []
  | Except.ok raw =>
      [⟨RoleType.user, p.1.name ++ ": " ++ specContent p.1.name (Except.ok raw)⟩]

/-- Expected message lists passed to the successive specialist generation
calls, starting with round context `ctx`. -/
def expectedSpecCalls (hostName : String) (ctx : List SchemaMessage) :
    List (Specialist × GenResult) → List (List SchemaMessage)
  | [] => []
  | p :: rest =>
      (SchemaMessage.mk RoleType.system p.1.systemPrompt ::
        (ctx ++ [SchemaMessage.mk RoleType.user (invitePrompt hostName p.1.name)])) ::
      expectedSpecCalls hostName (ctx ++ ctxUserOf p) rest

/-- Oracle encoding of a list of host-successful rounds: each chunk is the
host's content followed by the specialist results of that round. -/
def encodeChunks : List (String × List GenResult) → List GenResult
  | [] => []
  | c :: rest => (Except.ok c.1 :: c.2) ++ encodeChunks rest

/-- Expected transcript block of one host-successful round. -/
def roundEntries (hostName : String) (specs : List Specialist)
    (c : String × List GenResult) : List DiscussionMessage :=
  ⟨hostName, c.1, false⟩ :: expectedSpecEntries (specs.zip c.2)

/-- Expected transcript blocks of a list of host-successful rounds. -/
def expectedRoundsEntries (hostName : String) (specs : List Specialist) :
    List (String × List GenResult) → List DiscussionMessage
  | [] => []
  | c :: rest => roundEntries hostName specs c ++ expectedRoundsEntries hostName specs rest

theorem mapLookup_insert (m : List (String × String)) (k v : String) :
    mapLookup (mapInsert m k v) k = some v := by
  simp [mapLookup, mapInsert, List.find?]

theorem publishIfStream_messages (h : LogCallbackHandler) (msg : DiscussionMessage) :
    (h.publishIfStream msg).1.messages = h.messages := by
  unfold LogCallbackHandler.publishIfStream
  cases h.stream <;> simp

theorem publishIfStream_agentNameMap (h : LogCallbackHandler) (msg : DiscussionMessage) :
    (h.publishIfStream msg).1.agentNameMap = h.agentNameMap := by
  unfold LogCallbackHandler.publishIfStream
  cases h.stream <;> simp

theorem onAgentMessage_messages (h : LogCallbackHandler) (msg : SchemaMessage) :
    (h.onAgentMessage msg).1.messages = h.messages ++ [messageEntry h msg] := by
  unfold LogCallbackHandler.onAgentMessage
  rw [publishIfStream_messages]

theorem onAgentMessage_agentNameMap (h : LogCallbackHandler) (msg : SchemaMessage) :
    (h.onAgentMessage msg).1.agentNameMap = h.agentNameMap := by
  unfold LogCallbackHandler.onAgentMessage
  rw [publishIfStream_agentNameMap]

theorem onAgentHandoff_messages (h : LogCallbackHandler) (t : String) :
    (h.onAgentHandoff t).1.messages = h.messages ++ [handoffEntry t] := by
  unfold LogCallbackHandler.onAgentHandoff
  rw [publishIfStream_messages]

theorem onAgentHandoff_agentNameMap (h : LogCallbackHandler) (t : String) :
    (h.onAgentHandoff t).1.agentNameMap = h.agentNameMap := by
  unfold LogCallbackHandler.onAgentHandoff
  rw [publishIfStream_agentNameMap]

theorem messageEntry_assistant (h : LogCallbackHandler) (n c : String)
    (hm : mapLookup h.agentNameMap "assistant" = some n) :
    messageEntry h ⟨RoleType.assistant, c⟩ = ⟨n, c, false⟩ := by
  unfold messageEntry
  simp [roleTypeStr, hm]

/-- Characterization of the specialist loop when the oracle provides one
result per specialist: the transcript grows by exactly one handoff and one
reply entry per specialist, the oracle is consumed one entry per
specialist, and the generation calls are recorded as
`expectedSpecCalls`. -/
theorem specialistsLoop_spec (hostName : String) :
    ∀ (specs : List Specialist) (results rest : List GenResult)
      (cb : LogCallbackHandler) (ctx : List SchemaMessage)
      (calls0 : List (List SchemaMessage)) (pout : String),
      results.length = specs.length →
      ((specialistsLoop hostName specs cb ctx ⟨results ++ rest, calls0⟩ pout).1.messages
          = cb.messages ++ expectedSpecEntries (specs.zip results)) ∧
      ((specialistsLoop hostName specs cb ctx ⟨results ++ rest, calls0⟩ pout).2.1.oracle
          = rest) ∧
      ((specialistsLoop hostName specs cb ctx ⟨results ++ rest, calls0⟩ pout).2.1.calls
          = calls0 ++ expectedSpecCalls hostName ctx (specs.zip results)) := by
  intro specs
  induction specs with
  | nil =>
      intro results rest cb ctx calls0 pout hlen
      have hr : results = [] := List.length_eq_zero.mp (by simpa using hlen)
      subst hr
      simp [specialistsLoop, expectedSpecEntries, expectedSpecCalls]
  | cons sp rest' ih =>
      intro results rest cb ctx calls0 pout hlen
      cases results with
      | nil => simp at hlen
      | cons r rs =>
          have hlen' : rs.length = rest'.length := by simpa using hlen
          cases r with
          | error e =>
              simp only [specialistsLoop, generate, List.cons_append, List.headD_cons,
                List.tail_cons]
              obtain ⟨ih1, ih2, ih3⟩ := ih rs rest
                (((({ (cb.onAgentHandoff sp.name).1 with
                    agentNameMap := mapInsert (cb.onAgentHandoff sp.name).1.agentNameMap
                      "assistant" sp.name } : LogCallbackHandler)).onAgentMessage
                  ⟨RoleType.assistant, specialistFallback⟩).1)
                ctx
                (calls0 ++ [SchemaMessage.mk RoleType.system sp.systemPrompt ::
                  (ctx ++ [SchemaMessage.mk RoleType.user (invitePrompt hostName sp.name)])])
                (pout ++ ("专家" ++ sp.name ++ "回复失败: " ++ e)) hlen'
              refine ⟨?_, ?_, ?_⟩
              · rw [ih1, onAgentMessage_messages, messageEntry_assistant _ sp.name _ (by
                  simp only []
                  rw [mapLookup_insert])]
                simp [expectedSpecEntries, specEntryOf, specContent, onAgentHandoff_messages, List.zip]
              · rw [ih2]
              · rw [ih3]
                simp [expectedSpecCalls, ctxUserOf, List.zip]
          | ok raw =>
              simp only [specialistsLoop, generate, List.cons_append, List.headD_cons,
                List.tail_cons]
              obtain ⟨ih1, ih2, ih3⟩ := ih rs rest
                (((({ (cb.onAgentHandoff sp.name).1 with
                    agentNameMap := mapInsert (cb.onAgentHandoff sp.name).1.agentNameMap
                      "assistant" sp.name } : LogCallbackHandler)).onAgentMessage
                  ⟨RoleType.assistant,
                    if trimSpace raw = "" then emptyFallback sp.name else raw⟩).1)
                (ctx ++ [SchemaMessage.mk RoleType.user
                  (sp.name ++ ": " ++ (if trimSpace raw = "" then emptyFallback sp.name else raw))])
                (calls0 ++ [SchemaMessage.mk RoleType.system sp.systemPrompt ::
                  (ctx ++ [SchemaMessage.mk RoleType.user (invitePrompt hostName sp.name)])])
                pout hlen'
              refine ⟨?_, ?_, ?_⟩
              · rw [ih1, onAgentMessage_messages, messageEntry_assistant _ sp.name _ (by
                  simp only []
                  rw [mapLookup_insert])]
                simp [expectedSpecEntries, specEntryOf, specContent, onAgentHandoff_messages, List.zip]
              · rw [ih2]
              · rw [ih3]
                simp [expectedSpecCalls, ctxUserOf, specContent, List.zip]

/-- Characterization of `MultiAgent.Stream` when the host's generation
succeeds and the oracle provides one result per specialist: nil returned
error, the transcript grows by the host entry followed by the specialist
blocks, and the calls are the host call followed by the specialist calls
seeded with the host reply as round context. -/
theorem Stream_ok_spec (ma : MultiAgent) (messages : List SchemaMessage)
    (cb : LogCallbackHandler) (hc : String) (results rest : List GenResult)
    (calls0 : List (List SchemaMessage))
    (hlen : results.length = ma.specialists.length) :
    ((ma.Stream messages cb ⟨Except.ok hc :: (results ++ rest), calls0⟩).2 = none) ∧
    ((ma.Stream messages cb ⟨Except.ok hc :: (results ++ rest), calls0⟩).1.1.messages
        = cb.messages ++ DiscussionMessage.mk ma.host.name hc false ::
            expectedSpecEntries (ma.specialists.zip results)) ∧
    ((ma.Stream messages cb ⟨Except.ok hc :: (results ++ rest), calls0⟩).1.2.1.oracle
        = rest) ∧
    ((ma.Stream messages cb ⟨Except.ok hc :: (results ++ rest), calls0⟩).1.2.1.calls
        = calls0 ++ (SchemaMessage.mk RoleType.system ma.host.systemPrompt :: messages) ::
            expectedSpecCalls ma.host.name (messages ++ [⟨RoleType.assistant, hc⟩])
              (ma.specialists.zip results)) := by
  simp only [MultiAgent.Stream, generate, List.headD_cons, List.tail_cons]
  obtain ⟨h1, h2, h3⟩ := specialistsLoop_spec ma.host.name ma.specialists results rest
    ((({ cb with agentNameMap := mapInsert cb.agentNameMap "assistant" ma.host.name }
        : LogCallbackHandler)).onAgentMessage ⟨RoleType.assistant, hc⟩).1
    (messages ++ [⟨RoleType.assistant, hc⟩])
    (calls0 ++ [SchemaMessage.mk RoleType.system ma.host.systemPrompt :: messages])
    "" hlen
  refine ⟨trivial, ?_, ?_, ?_⟩
  · rw [h1, onAgentMessage_messages, messageEntry_assistant _ ma.host.name _ (by
      simp only []
      rw [mapLookup_insert])]
    simp
  · exact h2
  · rw [h3]
    simp

/-- Characterization of the round loop for a list of host-successful
rounds: the loop returns successfully, the transcript grows by one round
block per chunk, and the oracle is consumed exactly one host result plus
one result per specialist per round. -/
theorem runRounds_spec (req : MultiRoleplayRequest) (ma : MultiAgent) :
    ∀ (chunks : List (String × List GenResult)) (round : Nat)
      (history : List SchemaMessage) (cb : LogCallbackHandler)
      (calls0 : List (List SchemaMessage)) (rest : List GenResult),
      (∀ c ∈ chunks, (c.2 : List GenResult).length = ma.specialists.length) →
      ∃ st, runRounds req ma chunks.length round history cb
          ⟨encodeChunks chunks ++ rest, calls0⟩ = Except.ok st ∧
        st.1.messages = cb.messages ++ expectedRoundsEntries ma.host.name ma.specialists chunks ∧
        st.2.oracle = rest := by
  intro chunks
  induction chunks with
  | nil =>
      intro round history cb calls0 rest _
      exact ⟨(cb, ⟨rest, calls0⟩), by simp [runRounds, encodeChunks],
        by simp [expectedRoundsEntries], rfl⟩
  | cons c cs ih =>
      intro round history cb calls0 rest hlen
      have hc2 : (c.2 : List GenResult).length = ma.specialists.length := hlen c (by simp)
      have hor : encodeChunks (c :: cs) ++ rest
          = Except.ok c.1 :: (c.2 ++ (encodeChunks cs ++ rest)) := by
        simp [encodeChunks]
      obtain ⟨S1, S2, S3, S4⟩ := Stream_ok_spec ma
        (SchemaMessage.mk RoleType.system (roundSystemText req.host) ::
          SchemaMessage.mk RoleType.user (mkHostPrompt req round) :: history)
        cb c.1 c.2 (encodeChunks cs ++ rest) calls0 hc2
      rw [hor]
      cases cs with
      | nil =>
          simp only [List.length_cons, List.length_nil, runRounds]
          refine ⟨_, rfl, ?_, ?_⟩
          · rw [S2]
            simp [expectedRoundsEntries, roundEntries]
          · rw [S3]
            simp [encodeChunks]
      | cons c' cs' =>
          simp only [List.length_cons, runRounds]
          cases hru : (ma.Stream
              (SchemaMessage.mk RoleType.system (roundSystemText req.host) ::
                SchemaMessage.mk RoleType.user (mkHostPrompt req round) :: history)
              cb ⟨Except.ok c.1 :: (c.2 ++ (encodeChunks (c' :: cs') ++ rest)), calls0⟩).1.2.1
            with
          | mk ro rc =>
          rw [hru] at S3
          simp only at S3
          subst S3
          have hcs : ∀ x ∈ c' :: cs', (x.2 : List GenResult).length = ma.specialists.length :=
            fun x hx => hlen x (by simp [hx])
          obtain ⟨st, hst, hmsg, horc⟩ := ih (round + 1)
            (collectRoundMessages
              (ma.Stream
                (SchemaMessage.mk RoleType.system (roundSystemText req.host) ::
                  SchemaMessage.mk RoleType.user (mkHostPrompt req round) :: history)
                cb ⟨Except.ok c.1 :: (c.2 ++ (encodeChunks (c' :: cs') ++ rest)), calls0⟩).1.1.messages
              req.host req.specialists)
            (ma.Stream
              (SchemaMessage.mk RoleType.system (roundSystemText req.host) ::
                SchemaMessage.mk RoleType.user (mkHostPrompt req round) :: history)
              cb ⟨Except.ok c.1 :: (c.2 ++ (encodeChunks (c' :: cs') ++ rest)), calls0⟩).1.1
            rc rest hcs
          refine ⟨st, ?_, ?_, horc⟩
          · simpa using hst
          · rw [hmsg, S2]
            simp [expectedRoundsEntries, roundEntries]

/-- With a successful config, specialist construction returns one
`Specialist` per requested name, in order, with the interpolated system
prompt. -/
theorem buildSpecialists_ok (mc mi hostName : String) :
    ∀ names : List String,
      buildSpecialists (Except.ok ()) mc mi hostName names
        = Except.ok (names.map (fun n =>
            ⟨n, specialistSystemPrompt n mi mc hostName⟩)) := by
  intro names
  induction names with
  | nil => rfl
  | cons n rest ih => simp [buildSpecialists, newSpecialist, ih]

/-- Main characterization of `ProcessMultiRoleplayMeeting` on the success
path: meeting lookup and config succeed, the host succeeds every round
(oracle encoded as round chunks), and the summary call succeeds; the
returned transcript is the start entry, one block per round, and the
summary entry. -/
theorem Process_ok_spec (mc mi : String) (req : MultiRoleplayRequest)
    (stream : Option SSEStream) (chunks : List (String × List GenResult))
    (summaryText : String) (rest : List GenResult)
    (hr : req.rounds.toNat = chunks.length)
    (hlen : ∀ c ∈ chunks, (c.2 : List GenResult).length = req.specialists.length) :
    (ProcessMultiRoleplayMeeting (Except.ok (mc, mi)) (Except.ok ()) req stream
        (encodeChunks chunks ++ Except.ok summaryText :: rest)).result
      = Except.ok ⟨startEntry ::
          expectedRoundsEntries req.host
            (req.specialists.map (fun n => ⟨n, specialistSystemPrompt n mi mc req.host⟩))
            chunks
          ++ [summaryEntry summaryText], summaryText⟩ := by
  have hlen' : ∀ c ∈ chunks, (c.2 : List GenResult).length
      = (req.specialists.map (fun n =>
          (⟨n, specialistSystemPrompt n mi mc req.host⟩ : Specialist))).length := by
    intro c hc
    rw [List.length_map]
    exact hlen c hc
  obtain ⟨st, hst, hmsg, horc⟩ :=
    runRounds_spec req
      ⟨⟨hostSystemPrompt req.host mi mc (stringsJoin req.specialists "、"), req.host⟩,
        req.specialists.map (fun n => ⟨n, specialistSystemPrompt n mi mc req.host⟩)⟩
      chunks 0 []
      ((((⟨[] ++ [startEntry], stream, []⟩ : LogCallbackHandler)).publishIfStream startEntry).1)
      [] (Except.ok summaryText :: rest) hlen'
  rcases st with ⟨cbF, wF⟩
  rcases wF with ⟨wo, wc⟩
  simp only at horc
  subst horc
  simp only at hmsg
  simp only [ProcessMultiRoleplayMeeting]
  rw [buildSpecialists_ok]
  simp only [newHost]
  rw [hr]
  rw [hst]
  simp only [generateDiscussionSummary, generate, List.headD_cons, List.tail_cons]
  rw [publishIfStream_messages]
  rw [hmsg, publishIfStream_messages]
  simp

/-- Expected non-system transcript entries of a list of host-successful
rounds: per round, the host entry first, then one entry per specialist in
the caller-supplied order. -/
def expectedDiscussionEntries (hostName : String) (specs : List Specialist) :
    List (String × List GenResult) → List DiscussionMessage
  | [] => []
  | c :: rest => ⟨hostName, c.1, false⟩ ::
      ((specs.zip c.2).map specEntryOf ++ expectedDiscussionEntries hostName specs rest)

theorem expectedSpecEntries_length (ps : List (Specialist × GenResult)) :
    (expectedSpecEntries ps).length = 2 * ps.length := by
  induction ps with
  | nil => rfl
  | cons p rest ih => simp [expectedSpecEntries, ih]; ring

theorem expectedSpecEntries_filter_nonsystem (ps : List (Specialist × GenResult)) :
    (expectedSpecEntries ps).filter (fun m => !m.isSystem) = ps.map specEntryOf := by
  induction ps with
  | nil => rfl
  | cons p rest ih =>
      simp [expectedSpecEntries, List.filter_cons, handoffEntry, specEntryOf, ih]

theorem expectedSpecEntries_filter_system (ps : List (Specialist × GenResult)) :
    ((expectedSpecEntries ps).filter (fun m => m.isSystem)).length = ps.length := by
  induction ps with
  | nil => rfl
  | cons p rest ih =>
      simp [expectedSpecEntries, List.filter_cons, handoffEntry, specEntryOf, ih]

theorem expectedRoundsEntries_filter_nonsystem (hostName : String) (specs : List Specialist) :
    ∀ chunks, (expectedRoundsEntries hostName specs chunks).filter (fun m => !m.isSystem)
      = expectedDiscussionEntries hostName specs chunks := by
  intro chunks
  induction chunks with
  | nil => rfl
  | cons c rest ih =>
      simp [expectedRoundsEntries, roundEntries, expectedDiscussionEntries, List.filter_cons,
        List.filter_append, expectedSpecEntries_filter_nonsystem, ih]

theorem expectedRoundsEntries_length (hostName : String) (specs : List Specialist) :
    ∀ chunks, (∀ c ∈ chunks, (c.2 : List GenResult).length = specs.length) →
      (expectedRoundsEntries hostName specs chunks).length
        = chunks.length * (1 + 2 * specs.length) := by
  intro chunks
  induction chunks with
  | nil => intro _; simp [expectedRoundsEntries, expectedDiscussionEntries]
  | cons c rest ih =>
      intro hl
      have hc : (c.2 : List GenResult).length = specs.length := hl c (by simp)
      have hz : (specs.zip c.2).length = specs.length := by
        rw [List.length_zip, hc, Nat.min_self]
      simp [expectedRoundsEntries, roundEntries, expectedSpecEntries_length, hz,
        ih (fun x hx => hl x (by simp [hx]))]
      ring

theorem expectedRoundsEntries_filter_system_length (hostName : String) (specs : List Specialist) :
    ∀ chunks, (∀ c ∈ chunks, (c.2 : List GenResult).length = specs.length) →
      ((expectedRoundsEntries hostName specs chunks).filter (fun m => m.isSystem)).length
        = chunks.length * specs.length := by
  intro chunks
  induction chunks with
  | nil => intro _; simp [expectedRoundsEntries, expectedDiscussionEntries]
  | cons c rest ih =>
      intro hl
      have hc : (c.2 : List GenResult).length = specs.length := hl c (by simp)
      have hz : (specs.zip c.2).length = specs.length := by
        rw [List.length_zip, hc, Nat.min_self]
      simp [expectedRoundsEntries, roundEntries, List.filter_cons, List.filter_append,
        expectedSpecEntries_filter_system, hz, ih (fun x hx => hl x (by simp [hx]))]
      ring

theorem expectedDiscussionEntries_length (hostName : String) (specs : List Specialist) :
    ∀ chunks, (∀ c ∈ chunks, (c.2 : List GenResult).length = specs.length) →
      (expectedDiscussionEntries hostName specs chunks).length
        = chunks.length * (1 + specs.length) := by
  intro chunks
  induction chunks with
  | nil => intro _; simp [expectedRoundsEntries, expectedDiscussionEntries]
  | cons c rest ih =>
      intro hl
      have hc : (c.2 : List GenResult).length = specs.length := hl c (by simp)
      have hz : (specs.zip c.2).length = specs.length := by
        rw [List.length_zip, hc, Nat.min_self]
      simp [expectedDiscussionEntries, hz, ih (fun x hx => hl x (by simp [hx]))]
      ring

theorem emptyFallback_ne_empty (name : String) : emptyFallback name ≠ "" := by
  intro h
  have h2 := congrArg String.data h
  simp [emptyFallback, String.data_append] at h2

theorem handoffEntry_content_ne_empty (t : String) : (handoffEntry t).content ≠ "" := by
  intro h
  have h2 := congrArg String.data h
  simp [handoffEntry, String.data_append] at h2

theorem trimSpace_empty_of_empty : trimSpace "" = "" := by rfl

theorem specContent_ne_empty (name : String) (r : GenResult) :
    specContent name r ≠ "" := by
  cases r with
  | error e => simp [specContent]; decide
  | ok raw =>
      simp only [specContent]
      by_cases htr : trimSpace raw = ""
      · simp [htr]
        exact emptyFallback_ne_empty name
      · simp [htr]
        intro h
        subst h
        exact htr trimSpace_empty_of_empty

theorem expectedSpecEntries_content_ne_empty (ps : List (Specialist × GenResult)) :
    ∀ m ∈ expectedSpecEntries ps, m.content ≠ "" := by
  induction ps with
  | nil => intro m hm; simp [expectedSpecEntries] at hm
  | cons p rest ih =>
      intro m hm
      simp only [expectedSpecEntries, List.mem_cons] at hm
      rcases hm with h | h | h
      · subst h; exact handoffEntry_content_ne_empty p.1.name
      · subst h; exact specContent_ne_empty p.1.name p.2
      · exact ih m h

theorem collectStartPos_append_one (x : DiscussionMessage) :
    ∀ (xs : List DiscussionMessage) (i sp : Nat),
      collectStartPos (xs ++ [x]) i sp
        = if x.isSystem then i + xs.length + 1 else collectStartPos xs i sp := by
  intro xs
  induction xs with
  | nil =>
      intro i sp
      by_cases hx : x.isSystem <;> simp [collectStartPos, hx]
  | cons m rest ih =>
      intro i sp
      by_cases hx : x.isSystem <;>
        simp [collectStartPos, ih, hx] <;> ring

theorem collectStartPos_le (xs : List DiscussionMessage) :
    ∀ (i sp : Nat), sp ≤ i → collectStartPos xs i sp ≤ i + xs.length := by
  induction xs with
  | nil =>
      intro i sp hsp
      simpa [collectStartPos] using hsp.trans (Nat.le_add_right i 0)
  | cons m rest ih =>
      intro i sp hsp
      by_cases hm : m.isSystem
      · simp only [collectStartPos, hm, if_pos]
        have := ih (i + 1) (i + 1) (le_refl _)
        calc collectStartPos rest (i + 1) (i + 1) ≤ (i + 1) + rest.length := this
          _ = i + (m :: rest).length := by simp [List.length_cons]; ring
      · simp only [collectStartPos, hm, if_neg, Bool.false_eq_true, not_false_iff]
        have := ih (i + 1) sp (hsp.trans (Nat.le_succ i))
        calc collectStartPos rest (i + 1) sp ≤ (i + 1) + rest.length := this
          _ = i + (m :: rest).length := by simp [List.length_cons]; ring

theorem collectRoundMessages_eq_suffix (hostName : String) (ns : List String) :
    ∀ msgs : List DiscussionMessage,
      collectRoundMessages msgs hostName ns
        = ((msgs.reverse.takeWhile (fun m => !m.isSystem)).reverse).map
            (fun m => ⟨if m.role = hostName then RoleType.assistant else RoleType.user,
              m.content⟩) := by
  intro msgs
  induction msgs using List.reverseRecOn with
  | nil => rfl
  | append_singleton xs x ih =>
      by_cases hx : x.isSystem
      · simp only [collectRoundMessages, collectStartPos_append_one, hx, if_pos]
        rw [show (0 : Nat) + xs.length + 1 = (xs ++ [x]).length by simp]
        rw [List.drop_length]
        simp [List.takeWhile, hx]
      · have hb : collectStartPos xs 0 0 ≤ xs.length := by
          simpa using collectStartPos_le xs 0 0 (le_refl 0)
        simp only [collectRoundMessages, collectStartPos_append_one, hx, if_neg,
          Bool.false_eq_true, not_false_iff]
        rw [List.drop_append_of_le_length hb]
        simp only [List.filter_append, List.map_append]
        simp only [collectRoundMessages] at ih
        rw [ih]
        simp [List.takeWhile, hx]

theorem expectedSpecCalls_shape (hostName : String) :
    ∀ (ps : List (Specialist × GenResult)) (ctx : List SchemaMessage),
      List.Forall₂ (fun (p : Specialist × GenResult) (call : List SchemaMessage) =>
          ∃ mid, call = SchemaMessage.mk RoleType.system p.1.systemPrompt ::
            (mid ++ [SchemaMessage.mk RoleType.user (invitePrompt hostName p.1.name)]))
        ps (expectedSpecCalls hostName ctx ps) := by
  intro ps
  induction ps with
  | nil => intro ctx; exact List.Forall₂.nil
  | cons p rest ih =>
      intro ctx
      exact List.Forall₂.cons ⟨ctx, rfl⟩ (ih _)

def isErr : GenResult → Bool
  | Except.error _ => true
  | Except.ok _ => false

def scenarioMeeting : Except String (String × String) := Except.ok ("mc", "mi")

def hostFailRun : ProcOutcome :=
  PerformMultiRoleplayMeeting scenarioMeeting (Except.ok ())
    ⟨"m1", "H", ["A"], 1, ""⟩ [Except.error "boom", Except.ok "sum"]

def allOkRun : ProcOutcome :=
  PerformMultiRoleplayMeeting scenarioMeeting (Except.ok ())
    ⟨"m1", "H", ["A", "B"], 2, ""⟩
    [Except.ok "h1", Except.ok "a1", Except.ok "b1",
     Except.ok "h2", Except.ok "a2", Except.ok "b2", Except.ok "sum"]

def aFailRun : ProcOutcome :=
  PerformMultiRoleplayMeeting scenarioMeeting (Except.ok ())
    ⟨"m1", "H", ["A", "B"], 2, ""⟩
    [Except.ok "h1", Except.error "x", Except.ok "b1",
     Except.ok "h2", Except.ok "a2", Except.ok "b2", Except.ok "sum"]

def emptyHostRun : ProcOutcome :=
  PerformMultiRoleplayMeeting scenarioMeeting (Except.ok ())
    ⟨"m1", "H", ["A"], 1, ""⟩ [Except.ok "", Except.ok "a1", Except.ok "sum"]

/-- Handler with a live subscriber whose transport rejects the first
publish (delivery-failure scenario). -/
def deliveryFailCb0 : LogCallbackHandler := ⟨[], some ⟨[false], [], []⟩, []⟩

/-- State after emitting a first message (whose delivery fails). -/
def deliveryFailCb1 : LogCallbackHandler :=
  (deliveryFailCb0.onAgentMessage ⟨RoleType.assistant, "m1"⟩).1

/-- State after emitting a second message after the failed delivery. -/
def deliveryFailCb2 : LogCallbackHandler :=
  (deliveryFailCb1.onAgentMessage ⟨RoleType.assistant, "m2"⟩).1

/-- C1 counterexample: in a session where the host's generation call fails
on round 1 (`hostFailRun`: rounds = 1, one specialist, host oracle entry is
an error, summary succeeds), the synchronous entry point
`PerformMultiRoleplayMeeting` returns a SUCCESS result (a transcript with
just the start and summary entries), not a session-level error — refuting
the claim that host failure is reported as an error on the synchronous
path. -/
theorem c1_counterexample :
    hostFailRun.result = Except.ok ⟨[startEntry, summaryEntry "sum"], "sum"⟩ := rfl

/-- C1 amended: when the host's generation call fails, `MultiAgent.Stream`
still returns a nil error (the error text is only written to the pipe,
which the synchronous path discards); the round is abandoned with no
transcript entries and no specialist calls, and the session continues.
Host failure is therefore NOT surfaced as a session-level error on the
synchronous path. -/
theorem c1_amended (ma : MultiAgent) (messages : List SchemaMessage)
    (cb : LogCallbackHandler) (e : String) (rest : List GenResult)
    (calls0 : List (List SchemaMessage)) :
    ((ma.Stream messages cb ⟨Except.error e :: rest, calls0⟩).2 = none) ∧
    ((ma.Stream messages cb ⟨Except.error e :: rest, calls0⟩).1.1 = cb) ∧
    ((ma.Stream messages cb ⟨Except.error e :: rest, calls0⟩).1.2.2 = "错误: " ++ e) ∧
    ((ma.Stream messages cb ⟨Except.error e :: rest, calls0⟩).1.2.1.oracle = rest) := by
  refine ⟨rfl, ?_, ?_, ?_⟩ <;> simp [MultiAgent.Stream, generate]

/-- C2 counterexample: in `allOkRun` (rounds = 2, specialists A and B, all
generation calls succeed with contents h1, a1, b1, h2, a2, b2), the
context handed to the host for round 2 (generation call index 3) has only
4 messages — the host agent system prompt, the round system message, the
round instruction, and one history entry — and contains neither A's
round-1 text "a1" nor the host's own "h1", although "a1" is a non-system
transcript entry of round 1; so the round-R context is not "every
non-system entry of the transcript through the end of round R-1". -/
theorem c2_counterexample :
    allOkRun.world.calls.length = 7 ∧
    (allOkRun.world.calls.getD 3 []).length = 4 ∧
    (∀ m ∈ allOkRun.world.calls.getD 3 [], m.content ≠ "a1" ∧ m.content ≠ "h1") ∧
    (∃ m ∈ allOkRun.cb.messages, m.isSystem = false ∧ m.content = "a1") := by decide

/-- C2 amended: the history handed to the host for round R>0 is
`collectRoundMessages` of the transcript so far, which consists of only
the non-system entries STRICTLY AFTER the last system entry of the
transcript (because the per-specialist handoff markers are system entries,
this is just the final specialist reply of round R-1), re-tagged so the
host's name maps to assistant and every other role to user. -/
theorem c2_amended :
    ∀ (msgs : List DiscussionMessage) (hostName : String) (ns : List String),
      collectRoundMessages msgs hostName ns
        = ((msgs.reverse.takeWhile (fun m => !m.isSystem)).reverse).map
            (fun m => ⟨if m.role = hostName then RoleType.assistant else RoleType.user,
              m.content⟩) :=
  fun msgs hostName ns => collectRoundMessages_eq_suffix hostName ns msgs

/-- C3 counterexample: in `aFailRun` (rounds = 2, specialists A and B,
host succeeds both rounds, A's generation fails in round 1, B succeeds),
the message list built for B's round-1 generation call (call index 2)
contains no message carrying the fallback text attributed to A — neither
as bare content nor in the "A: ..." context format — refuting the claim
that B's round-1 context includes the fallback attributed to A. -/
theorem c3_counterexample :
    (aFailRun.world.calls.getD 2 []).length = 5 ∧
    (∀ m ∈ aFailRun.world.calls.getD 2 [],
      ¬(m.content = specialistFallback ∨ m.content = "A: " ++ specialistFallback)) := by
  decide

/-- C3 amended: in the same scenario, B's round-1 context does include the
host's round-1 text "h1" (as an assistant message), while the fallback
attributed to A appears only in the recorded transcript, not in B's
context: A's failing turn contributes nothing to the in-round context. -/
theorem c3_amended :
    (∃ m ∈ aFailRun.world.calls.getD 2 [],
      m.role = RoleType.assistant ∧ m.content = "h1") ∧
    DiscussionMessage.mk "A" specialistFallback false ∈ aFailRun.cb.messages ∧
    (aFailRun.world.calls.getD 2 []).length = 5 ∧
    (∀ m ∈ aFailRun.world.calls.getD 2 [],
      m.content ≠ specialistFallback ∧ m.content ≠ "A: " ++ specialistFallback) := by
  decide

/-- C4: when the host succeeds every round and the summary call succeeds,
the session completes with a success result whatever the specialist
results are (including failures, as required by the `isErr` premise), and
the returned transcript has exactly rounds × (1 + number of specialists)
non-system entries, 1 start + rounds × specialists handoff + 1 summary
system entries, and 2 + rounds × (1 + 2 × specialists) entries in total:
specialist failures never shrink the entry count. -/
theorem c4_specialist_failure_preserves_counts (mc mi : String)
    (req : MultiRoleplayRequest) (stream : Option SSEStream)
    (chunks : List (String × List GenResult)) (summaryText : String)
    (rest : List GenResult)
    (hr : req.rounds.toNat = chunks.length)
    (hlen : ∀ c ∈ chunks, (c.2 : List GenResult).length = req.specialists.length)
    (hfail : ∃ c ∈ chunks, ∃ r ∈ c.2, isErr r = true) :
    ∃ resp, (ProcessMultiRoleplayMeeting (Except.ok (mc, mi)) (Except.ok ()) req stream
        (encodeChunks chunks ++ Except.ok summaryText :: rest)).result = Except.ok resp ∧
      (resp.messages.filter (fun m => !m.isSystem)).length
        = req.rounds.toNat * (1 + req.specialists.length) ∧
      (resp.messages.filter (fun m => m.isSystem)).length
        = 1 + req.rounds.toNat * req.specialists.length + 1 ∧
      resp.messages.length = 2 + req.rounds.toNat * (1 + 2 * req.specialists.length) := by
  have hlenm : ∀ c ∈ chunks, (c.2 : List GenResult).length
      = (req.specialists.map (fun n =>
          (⟨n, specialistSystemPrompt n mi mc req.host⟩ : Specialist))).length := by
    intro c hc
    rw [List.length_map]
    exact hlen c hc
  refine ⟨_, Process_ok_spec mc mi req stream chunks summaryText rest hr hlen, ?_, ?_, ?_⟩
  · simp only [List.filter_cons, List.filter_append, startEntry, summaryEntry]
    simp only [expectedRoundsEntries_filter_nonsystem]
    rw [hr]
    simpa using expectedDiscussionEntries_length req.host _ chunks hlenm
  · simp only [List.filter_cons, List.filter_append, startEntry, summaryEntry]
    rw [hr]
    have := expectedRoundsEntries_filter_system_length req.host
      (req.specialists.map (fun n =>
        (⟨n, specialistSystemPrompt n mi mc req.host⟩ : Specialist))) chunks hlenm
    simp [this, List.length_map]
    ring
  · rw [hr]
    have := expectedRoundsEntries_length req.host
      (req.specialists.map (fun n =>
        (⟨n, specialistSystemPrompt n mi mc req.host⟩ : Specialist))) chunks hlenm
    simp [this, List.length_map]
    ring

/-- C5: when the host succeeds every round and the summary call succeeds,
the non-system entries of the returned transcript are exactly, per round
in order: the host's entry first, then one entry per specialist in the
caller-supplied order (`expectedDiscussionEntries`) — the host's entry of
each round precedes every specialist entry of that round, and specialist
entries follow the caller-supplied order. -/
theorem c5_round_ordering (mc mi : String)
    (req : MultiRoleplayRequest) (stream : Option SSEStream)
    (chunks : List (String × List GenResult)) (summaryText : String)
    (rest : List GenResult)
    (hr : req.rounds.toNat = chunks.length)
    (hlen : ∀ c ∈ chunks, (c.2 : List GenResult).length = req.specialists.length) :
    ∃ resp, (ProcessMultiRoleplayMeeting (Except.ok (mc, mi)) (Except.ok ()) req stream
        (encodeChunks chunks ++ Except.ok summaryText :: rest)).result = Except.ok resp ∧
      resp.messages.filter (fun m => !m.isSystem)
        = expectedDiscussionEntries req.host
            (req.specialists.map (fun n => ⟨n, specialistSystemPrompt n mi mc req.host⟩))
            chunks := by
  refine ⟨_, Process_ok_spec mc mi req stream chunks summaryText rest hr hlen, ?_⟩
  simp only [List.filter_cons, List.filter_append, startEntry, summaryEntry]
  simp [expectedRoundsEntries_filter_nonsystem]

/-- C6 counterexample: in `emptyHostRun` the host's generation returns the
empty string and the transcript (and returned response) contains the
entry ⟨"H", "", false⟩ — an empty-content non-system entry IS appended:
the empty-output fallback exists only for specialist turns, not for the
host. -/
theorem c6_counterexample :
    emptyHostRun.result = Except.ok
      ⟨[startEntry, ⟨"H", "", false⟩, handoffEntry "A", ⟨"A", "a1", false⟩,
        summaryEntry "sum"], "sum"⟩ ∧
    DiscussionMessage.mk "H" "" false ∈ emptyHostRun.cb.messages :=
  ⟨rfl, by decide⟩

/-- C6 amended: on a host-successful round, the host's content is recorded
VERBATIM (even when empty or whitespace-only), while every entry the
specialist loop appends has nonempty content (failure fallback,
empty-output fallback, or a reply whose trimmed text is nonempty). -/
theorem c6_amended (ma : MultiAgent) (messages : List SchemaMessage)
    (cb : LogCallbackHandler) (hc : String) (results rest : List GenResult)
    (calls0 : List (List SchemaMessage))
    (hlen : results.length = ma.specialists.length) :
    ((ma.Stream messages cb ⟨Except.ok hc :: (results ++ rest), calls0⟩).1.1.messages
        = cb.messages ++ DiscussionMessage.mk ma.host.name hc false ::
            expectedSpecEntries (ma.specialists.zip results)) ∧
    (∀ m ∈ expectedSpecEntries (ma.specialists.zip results), m.content ≠ "") :=
  ⟨(Stream_ok_spec ma messages cb hc results rest calls0 hlen).2.1,
    expectedSpecEntries_content_ne_empty _⟩

/-- C7 counterexample: with a transport that rejects the first publish,
the second `OnAgentMessage` call still attempts (and here achieves)
delivery — `attempted` and `delivered` both grow — so emission does NOT
become a permanent no-op after the first delivery failure. -/
theorem c7_counterexample :
    deliveryFailCb2.stream = some ⟨[],
      [⟨"assistant", "m1", false⟩, ⟨"assistant", "m2", false⟩],
      [⟨"assistant", "m2", false⟩]⟩ ∧
    deliveryFailCb2.messages
      = [⟨"assistant", "m1", false⟩, ⟨"assistant", "m2", false⟩] := by decide

/-- C7 amended: every `OnAgentMessage` call appends the entry to the
transcript and hands it to the transport exactly once, regardless of any
earlier delivery failures (the handler keeps no failure flag): a delivery
failure affects only that one event, and the orchestration's transcript is
unaffected. -/
theorem c7_amended (cb : LogCallbackHandler) (msg : SchemaMessage) (s : SSEStream)
    (hs : cb.stream = some s) :
    ((cb.onAgentMessage msg).1.messages = cb.messages ++ [messageEntry cb msg]) ∧
    ((cb.onAgentMessage msg).1.stream = some ⟨s.outcomes.tail,
      s.attempted ++ [messageEntry cb msg],
      if s.outcomes.headD true then s.delivered ++ [messageEntry cb msg]
      else s.delivered⟩) := by
  constructor
  · exact onAgentMessage_messages cb msg
  · simp [LogCallbackHandler.onAgentMessage, LogCallbackHandler.publishIfStream,
      SSEStream.publish, hs]

/-- C8: a session request with an empty specialist list is rejected with a
bad-request error by both the synchronous and the streaming handler, and
the handler's outcome does not depend on the orchestration function at all
(no orchestration is started). -/
theorem c8_empty_specialists_rejected (req : MultiRoleplayRequest)
    (perform perform' : MultiRoleplayRequest → Except String MultiRoleplayResponse)
    (sf sf' : MultiRoleplayRequest → Option String)
    (hempty : req.specialists = []) :
    (∃ msg, HandleMultiRoleplayMeeting (Except.ok req) perform
        = HandlerResponse.jsonError statusBadRequest msg) ∧
    HandleMultiRoleplayMeeting (Except.ok req) perform
      = HandleMultiRoleplayMeeting (Except.ok req) perform' ∧
    (∃ msg, HandleStreamMultiRoleplayMeeting (Except.ok req) sf
        = HandlerResponse.jsonError statusBadRequest msg) ∧
    HandleStreamMultiRoleplayMeeting (Except.ok req) sf
      = HandleStreamMultiRoleplayMeeting (Except.ok req) sf' := by
  simp only [HandleMultiRoleplayMeeting, HandleStreamMultiRoleplayMeeting, hempty]
  by_cases h1 : req.meetingID = "" <;> by_cases h2 : req.host = "" <;> simp [h1, h2]

/-- C9: the message list of every specialist generation call is exactly
that specialist's own system prompt first, then the accumulated round
context, and finally one user message inviting that specialist by name on
behalf of the host (`invitePrompt`), appended on every specialist turn;
the transcript entries appended by the loop are only the handoff and reply
entries — the invitation is never recorded. -/
theorem c9_specialist_call_shape (hostName : String) (specs : List Specialist)
    (results rest : List GenResult) (cb : LogCallbackHandler)
    (ctx : List SchemaMessage) (calls0 : List (List SchemaMessage)) (pout : String)
    (hlen : results.length = specs.length) :
    ((specialistsLoop hostName specs cb ctx ⟨results ++ rest, calls0⟩ pout).2.1.calls
        = calls0 ++ expectedSpecCalls hostName ctx (specs.zip results)) ∧
    List.Forall₂ (fun (p : Specialist × GenResult) (call : List SchemaMessage) =>
        ∃ mid, call = SchemaMessage.mk RoleType.system p.1.systemPrompt ::
          (mid ++ [SchemaMessage.mk RoleType.user (invitePrompt hostName p.1.name)]))
      (specs.zip results) (expectedSpecCalls hostName ctx (specs.zip results)) ∧
    ((specialistsLoop hostName specs cb ctx ⟨results ++ rest, calls0⟩ pout).1.messages
        = cb.messages ++ expectedSpecEntries (specs.zip results)) := by
  obtain ⟨h1, _, h3⟩ := specialistsLoop_spec hostName specs results rest cb ctx calls0 pout hlen
  exact ⟨h3, expectedSpecCalls_shape hostName _ ctx, h1⟩

/-- C10: `LoadConfig` is memoized process-wide — after a first call, a
second call with ANY environment (changed config file or `CONFIG_PATH`)
returns exactly the first call's result and leaves the cached state
unchanged, and `GetARKAPIKey` / `GetARKModelName` therefore return
identical results on every call. -/
theorem c10_loadConfig_memoized (env1 env2 : ConfigEnv) (st : ConfigState) :
    ((LoadConfig env2 (LoadConfig env1 st).2).1 = (LoadConfig env1 st).1) ∧
    ((LoadConfig env2 (LoadConfig env1 st).2).2 = (LoadConfig env1 st).2) ∧
    ((GetARKAPIKey env2 (LoadConfig env1 st).2).1 = (GetARKAPIKey env1 st).1) ∧
    ((GetARKModelName env2 (LoadConfig env1 st).2).1 = (GetARKModelName env1 st).1) := by
  rcases st with ⟨cached⟩
  cases cached with
  | some r => simp [LoadConfig, GetARKAPIKey, GetARKModelName]
  | none => simp [LoadConfig, GetARKAPIKey, GetARKModelName]

/-- Two-round scenario chunks with a failing specialist result in round 1. -/
def twoRoundChunksAFail : List (String × List GenResult) :=
  [("h1", [Except.error "x", Except.ok "b1"]), ("h2", [Except.ok "a2", Except.ok "b2"])]

/-- Request for a two-round session with host H and specialists A, B. -/
def reqHAB : MultiRoleplayRequest := ⟨"m1", "H", ["A", "B"], 2, ""⟩

/-- Witness for C4 at a concrete session (rounds = 2, specialists A and B,
A's round-1 call failing): 12 total entries, 6 non-system, 6 system. -/
theorem c4_witness :
    (reqHAB.rounds.toNat = twoRoundChunksAFail.length) ∧
    (∀ c ∈ twoRoundChunksAFail,
      (c.2 : List GenResult).length = reqHAB.specialists.length) ∧
    (∃ c ∈ twoRoundChunksAFail, ∃ r ∈ c.2, isErr r = true) ∧
    (∃ resp, (ProcessMultiRoleplayMeeting (Except.ok ("mc", "mi")) (Except.ok ()) reqHAB none
        (encodeChunks twoRoundChunksAFail ++ Except.ok "sum" :: [])).result
          = Except.ok resp ∧
      (resp.messages.filter (fun m => !m.isSystem)).length
        = reqHAB.rounds.toNat * (1 + reqHAB.specialists.length) ∧
      (resp.messages.filter (fun m => m.isSystem)).length
        = 1 + reqHAB.rounds.toNat * reqHAB.specialists.length + 1 ∧
      resp.messages.length
        = 2 + reqHAB.rounds.toNat * (1 + 2 * reqHAB.specialists.length)) :=
  ⟨by decide, by decide, by decide,
    c4_specialist_failure_preserves_counts "mc" "mi" reqHAB none twoRoundChunksAFail
      "sum" [] (by decide) (by decide) (by decide)⟩

/-- Witness for C5 at the same concrete session: the non-system entries
are host then A then B, round by round. -/
theorem c5_witness :
    (reqHAB.rounds.toNat = twoRoundChunksAFail.length) ∧
    (∀ c ∈ twoRoundChunksAFail,
      (c.2 : List GenResult).length = reqHAB.specialists.length) ∧
    (∃ resp, (ProcessMultiRoleplayMeeting (Except.ok ("mc", "mi")) (Except.ok ()) reqHAB none
        (encodeChunks twoRoundChunksAFail ++ Except.ok "sum" :: [])).result
          = Except.ok resp ∧
      resp.messages.filter (fun m => !m.isSystem)
        = expectedDiscussionEntries reqHAB.host
            (reqHAB.specialists.map (fun n =>
              ⟨n, specialistSystemPrompt n "mi" "mc" reqHAB.host⟩))
            twoRoundChunksAFail) :=
  ⟨by decide, by decide,
    c5_round_ordering "mc" "mi" reqHAB none twoRoundChunksAFail "sum" []
      (by decide) (by decide)⟩

/-- Witness for C6 at a concrete one-specialist round whose host output is
empty: the host entry is recorded verbatim with empty content, specialist
entries are nonempty. -/
theorem c6_witness :
    (([Except.ok "a"] : List GenResult).length
        = (⟨⟨"hp", "H"⟩, [⟨"A", "ap"⟩]⟩ : MultiAgent).specialists.length) ∧
    (((⟨⟨"hp", "H"⟩, [⟨"A", "ap"⟩]⟩ : MultiAgent).Stream []
        (⟨[], none, []⟩ : LogCallbackHandler)
        ⟨Except.ok "" :: ([Except.ok "a"] ++ []), []⟩).1.1.messages
      = (⟨[], none, []⟩ : LogCallbackHandler).messages ++
          DiscussionMessage.mk (⟨⟨"hp", "H"⟩, [⟨"A", "ap"⟩]⟩ : MultiAgent).host.name "" false ::
          expectedSpecEntries
            ((⟨⟨"hp", "H"⟩, [⟨"A", "ap"⟩]⟩ : MultiAgent).specialists.zip [Except.ok "a"])) ∧
    (∀ m ∈ expectedSpecEntries
        ((⟨⟨"hp", "H"⟩, [⟨"A", "ap"⟩]⟩ : MultiAgent).specialists.zip [Except.ok "a"]),
      m.content ≠ "") :=
  ⟨by decide,
    (c6_amended ⟨⟨"hp", "H"⟩, [⟨"A", "ap"⟩]⟩ [] ⟨[], none, []⟩ "" [Except.ok "a"] [] []
      (by decide)).1,
    (c6_amended ⟨⟨"hp", "H"⟩, [⟨"A", "ap"⟩]⟩ [] ⟨[], none, []⟩ "" [Except.ok "a"] [] []
      (by decide)).2⟩

/-- Witness for C7 at the concrete delivery-failure handler: one attempt
for the message, transcript appended. -/
theorem c7_witness :
    (deliveryFailCb0.stream = some ⟨[false], [], []⟩) ∧
    ((deliveryFailCb0.onAgentMessage ⟨RoleType.assistant, "m1"⟩).1.messages
        = deliveryFailCb0.messages ++
            [messageEntry deliveryFailCb0 ⟨RoleType.assistant, "m1"⟩]) ∧
    ((deliveryFailCb0.onAgentMessage ⟨RoleType.assistant, "m1"⟩).1.stream
        = some ⟨([false] : List Bool).tail,
            [] ++ [messageEntry deliveryFailCb0 ⟨RoleType.assistant, "m1"⟩],
            if ([false] : List Bool).headD true
            then [] ++ [messageEntry deliveryFailCb0 ⟨RoleType.assistant, "m1"⟩]
            else []⟩) :=
  ⟨by decide,
    (c7_amended deliveryFailCb0 ⟨RoleType.assistant, "m1"⟩ ⟨[false], [], []⟩ (by decide)).1,
    (c7_amended deliveryFailCb0 ⟨RoleType.assistant, "m1"⟩ ⟨[false], [], []⟩ (by decide)).2⟩

/-- Witness for C8 at a concrete empty-specialists request. -/
theorem c8_witness :
    ((⟨"m1", "H", [], 1, ""⟩ : MultiRoleplayRequest).specialists = []) ∧
    ((∃ msg, HandleMultiRoleplayMeeting (Except.ok ⟨"m1", "H", [], 1, ""⟩)
        (fun _ => Except.error "e")
        = HandlerResponse.jsonError statusBadRequest msg) ∧
      HandleMultiRoleplayMeeting (Except.ok ⟨"m1", "H", [], 1, ""⟩) (fun _ => Except.error "e")
        = HandleMultiRoleplayMeeting (Except.ok ⟨"m1", "H", [], 1, ""⟩)
            (fun _ => Except.error "f") ∧
      (∃ msg, HandleStreamMultiRoleplayMeeting (Except.ok ⟨"m1", "H", [], 1, ""⟩)
          (fun _ => none)
          = HandlerResponse.jsonError statusBadRequest msg) ∧
      HandleStreamMultiRoleplayMeeting (Except.ok ⟨"m1", "H", [], 1, ""⟩) (fun _ => none)
        = HandleStreamMultiRoleplayMeeting (Except.ok ⟨"m1", "H", [], 1, ""⟩)
            (fun _ => some "x")) :=
  ⟨rfl, c8_empty_specialists_rejected ⟨"m1", "H", [], 1, ""⟩ (fun _ => Except.error "e")
    (fun _ => Except.error "f") (fun _ => none) (fun _ => some "x") rfl⟩

/-- Witness for C9 at a concrete one-specialist loop. -/
theorem c9_witness :
    (([Except.ok "a"] : List GenResult).length = ([⟨"A", "ap"⟩] : List Specialist).length) ∧
    (((specialistsLoop "H" [⟨"A", "ap"⟩] ⟨[], none, []⟩ [] ⟨[Except.ok "a"] ++ [], []⟩
          "").2.1.calls
        = [] ++ expectedSpecCalls "H" [] (([⟨"A", "ap"⟩] : List Specialist).zip
            [Except.ok "a"])) ∧
      List.Forall₂ (fun (p : Specialist × GenResult) (call : List SchemaMessage) =>
          ∃ mid, call = SchemaMessage.mk RoleType.system p.1.systemPrompt ::
            (mid ++ [SchemaMessage.mk RoleType.user (invitePrompt "H" p.1.name)]))
        (([⟨"A", "ap"⟩] : List Specialist).zip [Except.ok "a"])
        (expectedSpecCalls "H" [] (([⟨"A", "ap"⟩] : List Specialist).zip [Except.ok "a"])) ∧
      ((specialistsLoop "H" [⟨"A", "ap"⟩] ⟨[], none, []⟩ [] ⟨[Except.ok "a"] ++ [], []⟩
          "").1.messages
        = ([] : List DiscussionMessage) ++ expectedSpecEntries
            (([⟨"A", "ap"⟩] : List Specialist).zip [Except.ok "a"]))) :=
  ⟨by decide,
    c9_specialist_call_shape "H" [⟨"A", "ap"⟩] [Except.ok "a"] [] ⟨[], none, []⟩ [] [] ""
      (by decide)⟩
